import Mathlib

/-!
Verification development for the mcp-memory-service repository.

The repository's `src/src/mcp_memory_service/web/app.py` defines four HTTP
endpoints (`store_memory`, `retrieve_memory`, `search_by_tag`, `delete_memory`)
over a memory storage engine.  The engine itself
(`storage/sqlite_vec.py`, `utils/hashing.py`, `models/memory.py`) is not part
of the provided sources, so those components are modelled from the
specification; the endpoint glue is embedded directly from `app.py`.

Machine reals (embedding vectors, similarity scores) are modelled as integers
(an exact linearly ordered numeric carrier on which every operation the
claims need — dot products, comparisons, ranking — is computable).
-/

namespace MemSvc

/-- Modelled from the spec: the Content Fingerprinter
`generate_content_hash(content, metadata)` (from the absent
`utils/hashing.py`).  The spec requires a pure deterministic,
collision-resistant hash of the pair `(content, metadata)`; it is modelled
as an injective encoding of that pair. -/
def generate_content_hash (content : String) (metadata : List (String × String)) : String :=
  toString (content, metadata)

/-- Modelled from the spec: the `Memory` record
(from the absent `models/memory.py`).  `tags` is a set of strings
(duplicates collapsed, order irrelevant), `created_at` is a timestamp
assigned at first successful store (modelled as a logical clock value). -/
structure Memory where
  content : String
  content_hash : String
  tags : Finset String
  memory_type : Option String
  created_at : Nat
deriving DecidableEq

/-- Modelled from the spec: the ISO rendering of `created_at` used by the
endpoints (`created_at_iso`). -/
def Memory.created_at_iso (m : Memory) : String :=
  toString m.created_at

/-- Modelled from the spec: a retrieval result pairing a record with its
relevance score. -/
structure SearchResult where
  memory : Memory
  relevance_score : ℤ
deriving DecidableEq

/-- Modelled from the spec: the state of the storage engine
(`SqliteVecMemoryStorage`): the durable record table, the Vector Index
(fingerprint, vector, created_at — the timestamp is carried so the index can
break score ties by recency, as the spec requires), the Tag Index
(fingerprint, set of tags), and a logical clock for `created_at` stamps. -/
structure StoreState where
  records : List Memory
  vectorIndex : List (String × List ℤ × Nat)
  tagIndex : List (String × Finset String)
  clock : Nat
deriving DecidableEq

/-- The empty storage state. -/
def emptyState : StoreState :=
  ⟨[], [], [], 0⟩

/-- Whether the durable record table holds a record with the given hash. -/
def hasRecord (records : List Memory) (h : String) : Bool :=
  records.any (fun m => m.content_hash == h)

/-- Look a record up by its content hash in the durable table. -/
def findRecord (records : List Memory) (h : String) : Option Memory :=
  records.find? (fun m => m.content_hash == h)

/-- The duplicate-content message returned by the store operation. -/
def dupMessage : String :=
  "Duplicate content: memory with this hash already exists"

/-- The message returned when the embedding provider fails. -/
def embedFailMessage (e : String) : String :=
  "Embedding unavailable: " ++ e

/-- The message returned by a successful store. -/
def storedMessage : String :=
  "Memory stored successfully"

/-- The message returned by deleting an unknown hash. -/
def notFoundMessage : String :=
  "Memory not found"

/-- The message returned by a successful delete. -/
def deletedMessage : String :=
  "Memory deleted successfully"

/-- Modelled from the spec: `storage.store(memory)` of the absent
`SqliteVecMemoryStorage`.  Dedup check first (duplicate is a no-op, not an
overwrite); then embedding (failure aborts the whole operation with no
partial writes); then atomically write the durable record, the Vector Index
entry and the Tag Index entry, stamping `created_at`. -/
def MemoryStore.store (embed : String → Except String (List ℤ))
    (st : StoreState) (mem : Memory) : (Bool × String) × StoreState :=
  if hasRecord st.records mem.content_hash then
    ((false, dupMessage), st)
  else
    match embed mem.content with
    | .error e => ((false, embedFailMessage e), st)
    | .ok v =>
      let stored : Memory := { mem with created_at := st.clock }
      ((true, storedMessage),
        { records := st.records ++ [stored]
          vectorIndex := st.vectorIndex ++ [(mem.content_hash, v, st.clock)]
          tagIndex := st.tagIndex ++ [(mem.content_hash, mem.tags)]
          clock := st.clock + 1 })

/-- Modelled from the spec: the similarity score between a query vector and a
stored vector.  The spec leaves the exact metric open (cosine recommended,
any fixed monotone score acceptable); modelled as the dot product. -/
def dotList : List ℤ → List ℤ → ℤ
  | a :: as, b :: bs => a * b + dotList as bs
  | _, _ => 0

/-- The ranking relation on scored index entries (hash, score, created_at):
descending similarity score, ties broken by most-recent `created_at`. -/
def rankLE (a b : String × ℤ × Nat) : Prop :=
  b.2.1 < a.2.1 ∨ (b.2.1 = a.2.1 ∧ b.2.2 ≤ a.2.2)

instance : DecidableRel rankLE := fun a b => by
  unfold rankLE
  infer_instance

instance : IsTotal (String × ℤ × Nat) rankLE := by
  constructor
  intro a b
  rcases lt_trichotomy a.2.1 b.2.1 with hlt | heq | hgt
  · exact Or.inr (Or.inl hlt)
  · rcases le_total a.2.2 b.2.2 with hle | hle
    · exact Or.inr (Or.inr ⟨heq, hle⟩)
    · exact Or.inl (Or.inr ⟨heq.symm, hle⟩)
  · exact Or.inl (Or.inl hgt)

instance : IsTrans (String × ℤ × Nat) rankLE := by
  constructor
  intro a b c hab hbc
  rcases hab with hab | ⟨hab, hab2⟩
  · rcases hbc with hbc | ⟨hbc, _⟩
    · exact Or.inl (hbc.trans hab)
    · exact Or.inl (hbc ▸ hab)
  · rcases hbc with hbc | ⟨hbc, hbc2⟩
    · exact Or.inl (hab ▸ hbc)
    · exact Or.inr ⟨hbc.trans hab, hbc2.trans hab2⟩

/-- Modelled from the spec: the Vector Index `search(query_vector, k)`:
score every stored vector against the query, order by descending similarity
(ties by most-recent `created_at`), return up to `k` entries. -/
def VectorIndex.search (idx : List (String × List ℤ × Nat)) (qv : List ℤ)
    (k : Nat) : List (String × ℤ × Nat) :=
  (List.insertionSort rankLE
    (idx.map (fun e => (e.1, dotList qv e.2.1, e.2.2)))).take k

/-- Modelled from the spec: `storage.retrieve(query, n_results)`.  Embed the
query (failure surfaces `EmbeddingUnavailable`), run the Vector Index search,
hydrate each hash into its record (skipping, not crashing, on a missing
record), and return in the index's ranked order. -/
def MemoryStore.retrieve (embed : String → Except String (List ℤ))
    (st : StoreState) (query : String) (n_results : Nat) :
    Except String (List SearchResult) :=
  match embed query with
  | .error e => .error (embedFailMessage e)
  | .ok qv =>
    .ok ((VectorIndex.search st.vectorIndex qv n_results).filterMap
      (fun p => (findRecord st.records p.1).map (fun m => ⟨m, p.2.1⟩)))

/-- Modelled from the spec: the Tag Index `query(tags)`: fingerprints
associated with ALL the given tags (intersection semantics); the empty tag
set returns the empty set, never every record. -/
def TagIndex.query (ti : List (String × Finset String)) (tags : List String) :
    List String :=
  if tags.isEmpty then []
  else (ti.filter (fun p => tags.all (fun t => decide (t ∈ p.2)))).map Prod.fst

/-- Modelled from the spec: `storage.search_by_tag(tags)`: Tag Index query
followed by record hydration, in creation order. -/
def MemoryStore.search_by_tag (st : StoreState) (tags : List String) :
    List Memory :=
  (TagIndex.query st.tagIndex tags).filterMap (findRecord st.records)

/-- Modelled from the spec: `storage.delete(content_hash)`: remove the record
from the durable table, the Vector Index and the Tag Index; an unknown hash
yields success=false with a not-found message and no state change. -/
def MemoryStore.delete (st : StoreState) (h : String) :
    (Bool × String) × StoreState :=
  if hasRecord st.records h then
    ((true, deletedMessage),
      { records := st.records.filter (fun m => !(m.content_hash == h))
        vectorIndex := st.vectorIndex.filter (fun e => !(e.1 == h))
        tagIndex := st.tagIndex.filter (fun e => !(e.1 == h))
        clock := st.clock })
  else
    ((false, notFoundMessage), st)

/-- The response of the `store_memory` endpoint (app.py lines 73–77). -/
structure StoreResponse where
  success : Bool
  message : String
  content_hash : Option String
deriving DecidableEq

/-- The `store_memory` endpoint (app.py lines 56–77): computes
`generate_content_hash(content, \x7b\x7d)` with an EMPTY metadata mapping,
builds the `Memory`, calls `storage.store`, and returns `success`,
`message`, and `content_hash` (the hash when success, `None` otherwise).
The `Memory` model collapses the supplied tag list to a set. -/
def store_memory (embed : String → Except String (List ℤ)) (st : StoreState)
    (content : String) (memory_type : Option String) (tags : List String) :
    StoreResponse × StoreState :=
  let content_hash := generate_content_hash content []
  let mem : Memory := ⟨content, content_hash, tags.toFinset, memory_type, 0⟩
  let res := MemoryStore.store embed st mem
  (⟨res.1.1, res.1.2, if res.1.1 then some content_hash else none⟩, res.2)

/-- One result row of the `retrieve_memory` endpoint (app.py lines 88–97). -/
structure RetrievedItem where
  content : String
  content_hash : String
  tags : Finset String
  similarity_score : ℤ
  created_at_iso : String
deriving DecidableEq

/-- The response of the `retrieve_memory` endpoint (app.py lines 87–99). -/
structure RetrieveResponse where
  results : List RetrievedItem
  total_found : Nat
deriving DecidableEq

/-- The row constructor of the `retrieve_memory` endpoint. -/
def toRetrievedItem (r : SearchResult) : RetrievedItem :=
  ⟨r.memory.content, r.memory.content_hash, r.memory.tags,
    r.relevance_score, r.memory.created_at_iso⟩

/-- The `retrieve_memory` endpoint (app.py lines 80–99): calls
`storage.retrieve(query, limit)` and marshals the results;
`total_found` is the number of results returned. -/
def retrieve_memory (embed : String → Except String (List ℤ)) (st : StoreState)
    (query : String) (limit : Nat) : Except String RetrieveResponse :=
  (MemoryStore.retrieve embed st query limit).map
    (fun results => ⟨results.map toRetrievedItem, results.length⟩)

/-- The default of the endpoint `limit` parameter: `Query(10, ...)`
(app.py line 81). -/
def retrieve_limit_default : Nat := 10

/-- The `retrieve_memory` endpoint as invoked with the `limit` parameter
omitted: FastAPI supplies the declared default of 10. -/
def retrieve_memory_no_limit (embed : String → Except String (List ℤ))
    (st : StoreState) (query : String) : Except String RetrieveResponse :=
  retrieve_memory embed st query retrieve_limit_default

/-- One result row of the `search_by_tag` endpoint (app.py lines 109–117). -/
structure TagSearchItem where
  content : String
  content_hash : String
  tags : Finset String
  created_at_iso : String
deriving DecidableEq

/-- The response of the `search_by_tag` endpoint (app.py lines 108–119). -/
structure TagSearchResponse where
  results : List TagSearchItem
  total_found : Nat
deriving DecidableEq

/-- The row constructor of the `search_by_tag` endpoint. -/
def toTagSearchItem (m : Memory) : TagSearchItem :=
  ⟨m.content, m.content_hash, m.tags, m.created_at_iso⟩

/-- The `search_by_tag` endpoint (app.py lines 101–119): calls
`storage.search_by_tag(tags)` and marshals the results. -/
def search_by_tag (st : StoreState) (tags : List String) : TagSearchResponse :=
  let results := MemoryStore.search_by_tag st tags
  ⟨results.map toTagSearchItem, results.length⟩

/-- The response of the `delete_memory` endpoint (app.py lines 128–131). -/
structure DeleteResponse where
  success : Bool
  message : String
deriving DecidableEq

/-- The `delete_memory` endpoint (app.py lines 121–131): calls
`storage.delete(content_hash)` and returns success and message. -/
def delete_memory (st : StoreState) (content_hash : String) :
    DeleteResponse × StoreState :=
  let res := MemoryStore.delete st content_hash
  (⟨res.1.1, res.1.2⟩, res.2)

/-- Well-formedness of a storage state, the spec's invariants I2 and I3:
record hashes are unique, the Vector Index holds exactly the stored hashes,
and the Tag Index mirrors each record's hash and tag set. -/
def wfState (st : StoreState) : Prop :=
  (st.records.map Memory.content_hash).Nodup
  ∧ st.vectorIndex.map Prod.fst = st.records.map Memory.content_hash
  ∧ st.tagIndex = st.records.map (fun m => (m.content_hash, m.tags))

/-- A fixed embedding provider that always succeeds, for concrete tests. -/
def embedOk : String → Except String (List ℤ) :=
  fun s => .ok [(s.length : ℤ)]

/-- A fixed embedding provider that always fails, for concrete tests. -/
def embedFail : String → Except String (List ℤ) :=
  fun _ => .error "model not loaded"

/-- A concrete record fixture used by witnesses. -/
def memA : Memory :=
  ⟨"buy milk", generate_content_hash "buy milk" [], {"errand"}, none, 0⟩

/-- A concrete well-formed one-record state used by witnesses. -/
def stateA : StoreState :=
  ⟨[memA], [(memA.content_hash, [8], 0)], [(memA.content_hash, memA.tags)], 1⟩

theorem hasRecord_iff {records : List Memory} {h : String} :
    hasRecord records h = true ↔ ∃ m ∈ records, m.content_hash = h := by
  simp [hasRecord]

theorem hasRecord_eq_false {records : List Memory} {h : String} :
    hasRecord records h = false ↔ ∀ m ∈ records, m.content_hash ≠ h := by
  simp [hasRecord]

theorem store_duplicate (embed : String → Except String (List ℤ))
    (st : StoreState) (mem : Memory)
    (h : hasRecord st.records mem.content_hash = true) :
    MemoryStore.store embed st mem = ((false, dupMessage), st) := by
  simp [MemoryStore.store, h]

theorem store_embed_error (embed : String → Except String (List ℤ))
    (st : StoreState) (mem : Memory) (e : String)
    (hnew : hasRecord st.records mem.content_hash = false)
    (herr : embed mem.content = .error e) :
    MemoryStore.store embed st mem = ((false, embedFailMessage e), st) := by
  simp [MemoryStore.store, hnew, herr]

theorem store_embed_ok (embed : String → Except String (List ℤ))
    (st : StoreState) (mem : Memory) (v : List ℤ)
    (hnew : hasRecord st.records mem.content_hash = false)
    (hok : embed mem.content = .ok v) :
    MemoryStore.store embed st mem = ((true, storedMessage),
      { records := st.records ++ [{ mem with created_at := st.clock }]
        vectorIndex := st.vectorIndex ++ [(mem.content_hash, v, st.clock)]
        tagIndex := st.tagIndex ++ [(mem.content_hash, mem.tags)]
        clock := st.clock + 1 }) := by
  simp [MemoryStore.store, hnew, hok]

theorem store_success_spec {embed : String → Except String (List ℤ)}
    {st : StoreState} {mem : Memory}
    (h : (MemoryStore.store embed st mem).1.1 = true) :
    hasRecord st.records mem.content_hash = false
    ∧ ∃ v, embed mem.content = .ok v
      ∧ (MemoryStore.store embed st mem).2.records
          = st.records ++ [{ mem with created_at := st.clock }] := by
  cases hdup : hasRecord st.records mem.content_hash with
  | true =>
    rw [store_duplicate embed st mem hdup] at h
    simp at h
  | false =>
    cases hemb : embed mem.content with
    | error e =>
      rw [store_embed_error embed st mem e hdup hemb] at h
      simp at h
    | ok v =>
      refine ⟨rfl, v, rfl, ?_⟩
      rw [store_embed_ok embed st mem v hdup hemb]

/-- The endpoint unfolded into its components (definitional). -/
theorem store_memory_components (embed : String → Except String (List ℤ))
    (st : StoreState) (c : String) (mt : Option String) (tags : List String) :
    store_memory embed st c mt tags
      = (⟨(MemoryStore.store embed st ⟨c, generate_content_hash c [], tags.toFinset, mt, 0⟩).1.1,
          (MemoryStore.store embed st ⟨c, generate_content_hash c [], tags.toFinset, mt, 0⟩).1.2,
          if (MemoryStore.store embed st ⟨c, generate_content_hash c [], tags.toFinset, mt, 0⟩).1.1
          then some (generate_content_hash c []) else none⟩,
         (MemoryStore.store embed st ⟨c, generate_content_hash c [], tags.toFinset, mt, 0⟩).2) := rfl

/-- After a successful store of content `c`, a later store of the same content
is rejected as a duplicate with no state change (shared helper). -/
theorem second_store_is_duplicate (embed : String → Except String (List ℤ))
    (st : StoreState) (c : String) (mt mt2 : Option String)
    (tags tags2 : List String)
    (hsucc : (store_memory embed st c mt tags).1.success = true) :
    store_memory embed (store_memory embed st c mt tags).2 c mt2 tags2
      = (⟨false, dupMessage, none⟩, (store_memory embed st c mt tags).2) := by
  rw [store_memory_components] at hsucc
  obtain ⟨hnew, v, hemb, hrec⟩ := store_success_spec hsucc
  have hdup : hasRecord (MemoryStore.store embed st
      ⟨c, generate_content_hash c [], tags.toFinset, mt, 0⟩).2.records
      (generate_content_hash c []) = true := by
    rw [hrec]
    exact hasRecord_iff.mpr
      ⟨_, List.mem_append_right _ (List.mem_singleton.mpr rfl), rfl⟩
  rw [store_memory_components, store_memory_components,
    store_duplicate embed _ ⟨c, generate_content_hash c [], tags2.toFinset, mt2, 0⟩ hdup]
  rfl

/-- On success, the endpoint reports the fingerprint of the content
(shared helper). -/
theorem store_memory_success_hash (embed : String → Except String (List ℤ))
    (st : StoreState) (c : String) (mt : Option String) (tags : List String)
    (h : (store_memory embed st c mt tags).1.success = true) :
    (store_memory embed st c mt tags).1.content_hash
      = some (generate_content_hash c []) := by
  have h2 : (MemoryStore.store embed st
      ⟨c, generate_content_hash c [], tags.toFinset, mt, 0⟩).1.1 = true := h
  rw [store_memory_components]
  simp only [h2, if_pos]

/-- Claim C1: after a store of content `c` succeeds, a second store call with
identical content returns success=false with the duplicate message and causes
no state change: the durable record count does not increase and neither the
Vector Index nor the Tag Index is mutated. -/
theorem store_idempotent_duplicate (embed : String → Except String (List ℤ))
    (st : StoreState) (c : String) (mt mt2 : Option String)
    (tags tags2 : List String)
    (hsucc : (store_memory embed st c mt tags).1.success = true) :
    (store_memory embed (store_memory embed st c mt tags).2 c mt2 tags2).1.success = false
    ∧ (store_memory embed (store_memory embed st c mt tags).2 c mt2 tags2).1.message = dupMessage
    ∧ (store_memory embed (store_memory embed st c mt tags).2 c mt2 tags2).2
        = (store_memory embed st c mt tags).2
    ∧ (store_memory embed (store_memory embed st c mt tags).2 c mt2 tags2).2.records.length
        = (store_memory embed st c mt tags).2.records.length
    ∧ (store_memory embed (store_memory embed st c mt tags).2 c mt2 tags2).2.vectorIndex
        = (store_memory embed st c mt tags).2.vectorIndex
    ∧ (store_memory embed (store_memory embed st c mt tags).2 c mt2 tags2).2.tagIndex
        = (store_memory embed st c mt tags).2.tagIndex := by
  rw [second_store_is_duplicate embed st c mt mt2 tags tags2 hsucc]
  exact ⟨rfl, rfl, rfl, rfl, rfl, rfl⟩

/-- Witness for C1: storing "buy milk" twice on the empty store; the first
call succeeds and the second is rejected with the duplicate message. -/
theorem store_idempotent_duplicate_witness :
    (store_memory embedOk emptyState "buy milk" none ["errand"] ).1.success = true
    ∧ (store_memory embedOk
        (store_memory embedOk emptyState "buy milk" none ["errand"] ).2
        "buy milk" none ["errand"] ).1.success = false := by
  refine ⟨rfl, ?_⟩
  exact (store_idempotent_duplicate embedOk emptyState "buy milk"
    none none ["errand"] ["errand"] rfl).1

/-- Claim C5: deleting a hash that is not present in the durable store returns
success=false with the not-found message as a structured outcome, and leaves
the state unchanged. -/
theorem delete_unknown_not_found (st : StoreState) (h : String)
    (habs : ∀ m ∈ st.records, m.content_hash ≠ h) :
    (delete_memory st h).1.success = false
    ∧ (delete_memory st h).1.message = notFoundMessage
    ∧ (delete_memory st h).2 = st := by
  have hb : hasRecord st.records h = false := hasRecord_eq_false.mpr habs
  simp [delete_memory, MemoryStore.delete, hb]

/-- Witness for C5: deleting from the empty store reports not-found and
leaves the empty state intact. -/
theorem delete_unknown_not_found_witness :
    (delete_memory emptyState "nope").1.success = false
    ∧ (delete_memory emptyState "nope").1.message = notFoundMessage
    ∧ (delete_memory emptyState "nope").2 = emptyState :=
  delete_unknown_not_found emptyState "nope"
    (fun m hm => absurd hm (List.not_mem_nil m))

/-- Claim C6: the content fingerprint is a pure deterministic function of
(content, metadata) — identical inputs always yield identical hashes — and the
system treats an identical hash as the same logical memory: a store whose hash
already exists is a no-op returning success=false. -/
theorem fingerprint_deterministic (c : String) (meta : List (String × String))
    (embed : String → Except String (List ℤ)) (st : StoreState) (mem : Memory)
    (hdup : ∃ m ∈ st.records, m.content_hash = mem.content_hash) :
    generate_content_hash c meta = generate_content_hash c meta
    ∧ (MemoryStore.store embed st mem).1.1 = false
    ∧ (MemoryStore.store embed st mem).2 = st := by
  have hd : hasRecord st.records mem.content_hash = true := hasRecord_iff.mpr hdup
  rw [store_duplicate embed st mem hd]
  exact ⟨rfl, rfl, rfl⟩

/-- Witness for C6: a store into a state already holding the same hash is
rejected without a state change. -/
theorem fingerprint_deterministic_witness :
    generate_content_hash "a" [] = generate_content_hash "a" []
    ∧ (MemoryStore.store embedOk stateA memA).1.1 = false
    ∧ (MemoryStore.store embedOk stateA memA).2 = stateA :=
  fingerprint_deterministic "a" [] embedOk stateA memA
    ⟨memA, List.mem_singleton.mpr rfl, rfl⟩

/-- Claim C7: the store endpoint response is a structure
(success, message, content_hash) where content_hash is the fingerprint of the
stored content when success is true, and none when success is false. -/
theorem store_response_shape (embed : String → Except String (List ℤ))
    (st : StoreState) (c : String) (mt : Option String) (tags : List String) :
    ((store_memory embed st c mt tags).1.success = true →
      (store_memory embed st c mt tags).1.content_hash
        = some (generate_content_hash c []))
    ∧ ((store_memory embed st c mt tags).1.success = false →
      (store_memory embed st c mt tags).1.content_hash = none) := by
  constructor
  · exact store_memory_success_hash embed st c mt tags
  · intro h
    have h2 : (MemoryStore.store embed st
        ⟨c, generate_content_hash c [], tags.toFinset, mt, 0⟩).1.1 = false := h
    rw [store_memory_components]
    simp only [h2, Bool.false_eq_true, if_false]

/-- Witness for C7: a successful store reports the fingerprint, a store whose
embedding fails reports none. -/
theorem store_response_shape_witness :
    (store_memory embedOk emptyState "a" none []).1.content_hash
      = some (generate_content_hash "a" [])
    ∧ (store_memory embedFail emptyState "a" none []).1.content_hash = none := by
  constructor
  · exact (store_response_shape embedOk emptyState "a" none []).1 rfl
  · exact (store_response_shape embedFail emptyState "a" none []).2 rfl

/-- Claim C9: the endpoint always passes the empty metadata mapping to the
fingerprinter, so the hash depends only on the content string: two store
calls with equal content but different memory_type or tags compute the same
content_hash, and the second call is treated as a duplicate of the first. -/
theorem content_hash_ignores_type_and_tags
    (embed : String → Except String (List ℤ)) (st st2 : StoreState)
    (c : String) (mt1 mt2 : Option String) (tags1 tags2 : List String) :
    ((store_memory embed st c mt1 tags1).1.success = true →
      (store_memory embed st c mt1 tags1).1.content_hash
        = some (generate_content_hash c []))
    ∧ ((store_memory embed st2 c mt2 tags2).1.success = true →
      (store_memory embed st2 c mt2 tags2).1.content_hash
        = some (generate_content_hash c []))
    ∧ ((store_memory embed st c mt1 tags1).1.success = true →
      (store_memory embed (store_memory embed st c mt1 tags1).2 c mt2 tags2).1.success
        = false) := by
  refine ⟨store_memory_success_hash embed st c mt1 tags1,
    store_memory_success_hash embed st2 c mt2 tags2, ?_⟩
  intro hsucc
  rw [second_store_is_duplicate embed st c mt1 mt2 tags1 tags2 hsucc]

/-- Witness for C9: two stores of the same content with different type and
tags compute the same hash and the second is a duplicate. -/
theorem content_hash_ignores_type_and_tags_witness :
    (store_memory embedOk emptyState "c" (some "note") ["a"] ).1.content_hash
      = some (generate_content_hash "c" [])
    ∧ (store_memory embedOk
        (store_memory embedOk emptyState "c" (some "note") ["a"] ).2
        "c" none ["b"] ).1.success = false := by
  have h := content_hash_ignores_type_and_tags embedOk emptyState emptyState
    "c" (some "note") none ["a"] ["b"]
  exact ⟨h.1 rfl, h.2.2 rfl⟩

/-- The concrete one-record state is well-formed. -/
theorem wf_stateA : wfState stateA :=
  ⟨List.nodup_singleton _, rfl, rfl⟩

/-- Claim C2: when the embedding provider fails, the whole store operation
aborts: success=false carrying the failure reason, no hash in the response,
the state is unchanged, and no durable record, Vector Index entry, or Tag
Index entry exists for that content afterwards. -/
theorem store_aborts_on_embedding_failure
    (embed : String → Except String (List ℤ)) (st : StoreState)
    (c : String) (mt : Option String) (tags : List String) (e : String)
    (hwf : wfState st) (hemb : embed c = .error e)
    (hnew : ∀ m ∈ st.records, m.content_hash ≠ generate_content_hash c []) :
    (store_memory embed st c mt tags).1.success = false
    ∧ (store_memory embed st c mt tags).1.message = embedFailMessage e
    ∧ (store_memory embed st c mt tags).1.content_hash = none
    ∧ (store_memory embed st c mt tags).2 = st
    ∧ (∀ m ∈ (store_memory embed st c mt tags).2.records,
        m.content_hash ≠ generate_content_hash c [])
    ∧ (∀ p ∈ (store_memory embed st c mt tags).2.vectorIndex,
        p.1 ≠ generate_content_hash c [])
    ∧ (∀ p ∈ (store_memory embed st c mt tags).2.tagIndex,
        p.1 ≠ generate_content_hash c []) := by
  have hb : hasRecord st.records (generate_content_hash c []) = false :=
    hasRecord_eq_false.mpr hnew
  have heq := store_embed_error embed st
    ⟨c, generate_content_hash c [], tags.toFinset, mt, 0⟩ e hb hemb
  rw [store_memory_components, heq]
  refine ⟨rfl, rfl, rfl, rfl, hnew, ?_, ?_⟩
  · intro p hp hcontra
    have hmem : p.1 ∈ st.vectorIndex.map Prod.fst := List.mem_map_of_mem _ hp
    rw [hwf.2.1] at hmem
    obtain ⟨m, hm, hmh⟩ := List.mem_map.mp hmem
    exact hnew m hm (hmh.trans hcontra)
  · intro p hp hcontra
    rw [hwf.2.2] at hp
    obtain ⟨m, hm, hpm⟩ := List.mem_map.mp hp
    subst hpm
    exact hnew m hm hcontra

/-- Witness for C2: a failing embedding provider leaves the one-record state
untouched and reports the failure. -/
theorem store_aborts_on_embedding_failure_witness :
    embedFail "other" = .error "model not loaded"
    ∧ (store_memory embedFail stateA "other" none ["t"] ).1.success = false
    ∧ (store_memory embedFail stateA "other" none ["t"] ).1.message
        = embedFailMessage "model not loaded"
    ∧ (store_memory embedFail stateA "other" none ["t"] ).2 = stateA := by
  have h := store_aborts_on_embedding_failure embedFail stateA "other" none
    ["t"] "model not loaded" wf_stateA rfl (by decide)
  exact ⟨rfl, h.1, h.2.1, h.2.2.2.1⟩

/-- The retrieve endpoint succeeds exactly when the storage retrieve does,
marshalling the results (shared helper). -/
theorem retrieve_memory_ok (embed : String → Except String (List ℤ))
    (st : StoreState) (q : String) (limit : Nat) (resp : RetrieveResponse)
    (h : retrieve_memory embed st q limit = .ok resp) :
    ∃ results, MemoryStore.retrieve embed st q limit = .ok results
      ∧ resp = ⟨results.map toRetrievedItem, results.length⟩ := by
  unfold retrieve_memory at h
  cases hr : MemoryStore.retrieve embed st q limit with
  | error e =>
    rw [hr] at h
    simp [Except.map] at h
  | ok results =>
    rw [hr] at h
    simp only [Except.map, Except.ok.injEq] at h
    exact ⟨results, rfl, h.symm⟩

/-- The storage retrieve returns at most `n_results` results
(shared helper). -/
theorem retrieve_length_le (embed : String → Except String (List ℤ))
    (st : StoreState) (q : String) (n : Nat) (results : List SearchResult)
    (h : MemoryStore.retrieve embed st q n = .ok results) :
    results.length ≤ n := by
  unfold MemoryStore.retrieve at h
  cases hemb : embed q with
  | error e =>
    rw [hemb] at h
    simp at h
  | ok qv =>
    rw [hemb] at h
    simp only [Except.ok.injEq] at h
    subst h
    refine le_trans (List.length_filterMap_le _ _) ?_
    unfold VectorIndex.search
    exact List.length_take_le _ _

/-- Claim C10: with the limit parameter omitted, the endpoint invokes the
storage retrieve with n_results equal to the declared default 10, so at most
10 results are returned. -/
theorem retrieve_default_limit (embed : String → Except String (List ℤ))
    (st : StoreState) (q : String) :
    retrieve_memory_no_limit embed st q = retrieve_memory embed st q 10
    ∧ ∀ resp, retrieve_memory_no_limit embed st q = .ok resp →
        resp.results.length ≤ 10 := by
  refine ⟨rfl, ?_⟩
  intro resp hresp
  obtain ⟨results, hres, rfl⟩ := retrieve_memory_ok embed st q
    retrieve_limit_default resp hresp
  calc (results.map toRetrievedItem).length
      = results.length := List.length_map _ _
    _ ≤ 10 := retrieve_length_le embed st q retrieve_limit_default results hres

/-- Witness for C10: an omitted limit equals an explicit limit of 10 and the
result count is bounded by 10. -/
theorem retrieve_default_limit_witness :
    retrieve_memory_no_limit embedOk emptyState "q"
      = retrieve_memory embedOk emptyState "q" 10
    ∧ (⟨[], 0⟩ : RetrieveResponse).results.length ≤ 10 := by
  have h := retrieve_default_limit embedOk emptyState "q"
  exact ⟨h.1, h.2 ⟨[], 0⟩ rfl⟩

/-- The Vector Index search output is sorted under the ranking relation
(shared helper). -/
theorem search_pairwise (idx : List (String × List ℤ × Nat)) (qv : List ℤ)
    (k : Nat) : (VectorIndex.search idx qv k).Pairwise rankLE := by
  unfold VectorIndex.search
  exact List.Pairwise.sublist (List.take_sublist k _)
    (List.sorted_insertionSort rankLE _)

/-- The storage retrieve results carry non-increasing relevance scores
(shared helper). -/
theorem retrieve_scores_pairwise (embed : String → Except String (List ℤ))
    (st : StoreState) (q : String) (n : Nat) (results : List SearchResult)
    (h : MemoryStore.retrieve embed st q n = .ok results) :
    results.Pairwise (fun a b => b.relevance_score ≤ a.relevance_score) := by
  unfold MemoryStore.retrieve at h
  cases hemb : embed q with
  | error e =>
    rw [hemb] at h
    simp at h
  | ok qv =>
    rw [hemb] at h
    simp only [Except.ok.injEq] at h
    subst h
    refine List.pairwise_filterMap.mpr ?_
    refine List.Pairwise.imp ?_ (search_pairwise st.vectorIndex qv n)
    intro p p' hpp b hb b' hb'
    rw [Option.mem_def, Option.map_eq_some'] at hb hb'
    obtain ⟨m, _, hbm⟩ := hb
    obtain ⟨m', _, hbm'⟩ := hb'
    rw [← hbm, ← hbm']
    rcases hpp with hlt | ⟨heq, _⟩
    · exact le_of_lt hlt
    · exact le_of_eq heq

/-- Claim C4: the retrieve endpoint returns its results sorted by descending
similarity score, re-running the identical query against an unchanged state
returns the identical ordering, and total_found equals the number of results
returned. -/
theorem retrieve_ranked_deterministic (embed : String → Except String (List ℤ))
    (st : StoreState) (q : String) (limit : Nat) (resp : RetrieveResponse)
    (h : retrieve_memory embed st q limit = .ok resp) :
    retrieve_memory embed st q limit = retrieve_memory embed st q limit
    ∧ resp.results.Pairwise
        (fun a b => b.similarity_score ≤ a.similarity_score)
    ∧ resp.total_found = resp.results.length := by
  obtain ⟨results, hres, rfl⟩ := retrieve_memory_ok embed st q limit resp h
  refine ⟨rfl, ?_, ?_⟩
  · refine List.pairwise_map.mpr ?_
    exact List.Pairwise.imp (fun hab => hab)
      (retrieve_scores_pairwise embed st q limit results hres)
  · simp

/-- Witness for C4: retrieving from the concrete one-record state returns its
record with score 32 = dot([4],[8]), sorted and counted correctly. -/
theorem retrieve_ranked_deterministic_witness :
    retrieve_memory embedOk stateA "milk" 5
      = .ok ⟨[⟨"buy milk", memA.content_hash, memA.tags, 32, "0"⟩], 1⟩
    ∧ (⟨[⟨"buy milk", memA.content_hash, memA.tags, 32, "0"⟩], 1⟩
        : RetrieveResponse).results.Pairwise
        (fun a b => b.similarity_score ≤ a.similarity_score)
    ∧ (⟨[⟨"buy milk", memA.content_hash, memA.tags, 32, "0"⟩], 1⟩
        : RetrieveResponse).total_found
      = (⟨[⟨"buy milk", memA.content_hash, memA.tags, 32, "0"⟩], 1⟩
        : RetrieveResponse).results.length := by
  have h := retrieve_ranked_deterministic embedOk stateA "milk" 5
    ⟨[⟨"buy milk", memA.content_hash, memA.tags, 32, "0"⟩], 1⟩ rfl
  exact ⟨rfl, h.2.1, h.2.2⟩

/-- Looking up the hash of a member record returns that record when record
hashes are unique (shared helper). -/
theorem findRecord_of_mem (records : List Memory) (m : Memory)
    (hnd : (records.map Memory.content_hash).Nodup) (hm : m ∈ records) :
    findRecord records m.content_hash = some m := by
  induction records with
  | nil => cases hm
  | cons r rs ih =>
    rw [List.map_cons, List.nodup_cons] at hnd
    rcases List.mem_cons.mp hm with rfl | hm2
    · simp [findRecord, List.find?_cons]
    · have hne2 : (r.content_hash == m.content_hash) = false := by
        rw [beq_eq_false_iff_ne]
        intro hcontra
        exact hnd.1 (hcontra ▸ List.mem_map_of_mem Memory.content_hash hm2)
      have hrest := ih hnd.2 hm2
      unfold findRecord at hrest ⊢
      simp only [List.find?_cons, hne2]
      exact hrest

/-- A filterMap that is pointwise `some` on its input is the identity
(shared helper). -/
theorem filterMap_id_of_some {α : Type} (f : α → Option α) :
    ∀ (l : List α), (∀ a ∈ l, f a = some a) → l.filterMap f = l := by
  intro l
  induction l with
  | nil => intro _; rfl
  | cons a as ih =>
    intro hall
    simp only [List.filterMap_cons, hall a (List.mem_cons_self a as)]
    rw [ih (fun b hb => hall b (List.mem_cons_of_mem a hb))]

/-- On a well-formed state, tag search is the records filtered by tag
containment (shared helper). -/
theorem search_by_tag_eq_filter (st : StoreState) (hwf : wfState st)
    (tags : List String) (hne : tags ≠ []) :
    MemoryStore.search_by_tag st tags
      = st.records.filter (fun m => tags.all (fun t => decide (t ∈ m.tags))) := by
  unfold MemoryStore.search_by_tag TagIndex.query
  rw [if_neg (by simpa using hne), hwf.2.2, List.filter_map, List.map_map,
    List.filterMap_map]
  exact filterMap_id_of_some _ _
    (fun m hm => findRecord_of_mem _ _ hwf.1 (List.mem_of_mem_filter hm))

/-- Claim C3: search_by_tag returns exactly the stored records whose tag set
contains all the given tags (intersection semantics), and the empty tag set
returns an empty result sequence, never all records. -/
theorem search_by_tag_intersection (st : StoreState) (hwf : wfState st)
    (tags : List String) :
    (search_by_tag st []).results = []
    ∧ (tags ≠ [] → ∀ m : Memory,
        m ∈ MemoryStore.search_by_tag st tags
          ↔ m ∈ st.records ∧ ∀ t ∈ tags, t ∈ m.tags)
    ∧ (search_by_tag st tags).results
        = (MemoryStore.search_by_tag st tags).map toTagSearchItem := by
  refine ⟨rfl, ?_, rfl⟩
  intro hne m
  rw [search_by_tag_eq_filter st hwf tags hne]
  simp [List.mem_filter, List.all_eq_true]

/-- A two-record fixture mirroring the spec example: R1 tagged a and b. -/
def memR1 : Memory :=
  ⟨"r1", generate_content_hash "r1" [], {"a", "b"}, none, 0⟩

/-- A two-record fixture mirroring the spec example: R2 tagged a only. -/
def memR2 : Memory :=
  ⟨"r2", generate_content_hash "r2" [], {"a"}, none, 1⟩

/-- The concrete two-record state mirroring the spec example. -/
def stateB : StoreState :=
  ⟨[memR1, memR2],
   [(memR1.content_hash, [1], 0), (memR2.content_hash, [1], 1)],
   [(memR1.content_hash, memR1.tags), (memR2.content_hash, memR2.tags)],
   2⟩

/-- The concrete two-record state is well-formed. -/
theorem wf_stateB : wfState stateB :=
  ⟨by decide, rfl, rfl⟩

/-- Witness for C3: on the spec example, the empty query returns nothing and
querying for both tags a and b returns exactly R1. -/
theorem search_by_tag_intersection_witness :
    (search_by_tag stateB []).results = []
    ∧ (memR1 ∈ MemoryStore.search_by_tag stateB ["a", "b"]
        ↔ memR1 ∈ stateB.records ∧ ∀ t ∈ (["a", "b"] : List String), t ∈ memR1.tags)
    ∧ MemoryStore.search_by_tag stateB ["a", "b"] = [memR1] := by
  have h := search_by_tag_intersection stateB wf_stateB ["a", "b"]
  exact ⟨h.1, h.2.1 (by decide) memR1, by decide⟩

/-- Claim C8: a stored record's tags form a set of strings — duplicates in
the supplied tags collapse and insertion order is irrelevant, the whole store
outcome being identical for tag lists with the same elements — and the tags
returned by retrieve and search_by_tag are exactly stored records' tag
sets. -/
theorem tags_set_semantics (embed : String → Except String (List ℤ))
    (st : StoreState) (c : String) (mt : Option String)
    (l l2 : List String) (hset : l.toFinset = l2.toFinset) :
    store_memory embed st c mt l = store_memory embed st c mt l2
    ∧ (∀ m ∈ (store_memory embed st c mt l).2.records,
        m ∈ st.records ∨ m.tags = l.toFinset)
    ∧ (∀ (st2 : StoreState) (tags2 : List String) (it : TagSearchItem),
        it ∈ (search_by_tag st2 tags2).results →
          ∃ m ∈ st2.records, it.tags = m.tags)
    ∧ (∀ (embed2 : String → Except String (List ℤ)) (st2 : StoreState)
        (q2 : String) (n2 : Nat) (resp : RetrieveResponse),
        retrieve_memory embed2 st2 q2 n2 = .ok resp →
          ∀ it ∈ resp.results, ∃ m ∈ st2.records, it.tags = m.tags) := by
  refine ⟨?_, ?_, ?_, ?_⟩
  · rw [store_memory_components, store_memory_components, hset]
  · intro m hm
    rw [store_memory_components] at hm
    cases hdup : hasRecord st.records (generate_content_hash c []) with
    | true =>
      rw [store_duplicate embed st
        ⟨c, generate_content_hash c [], l.toFinset, mt, 0⟩ hdup] at hm
      exact Or.inl hm
    | false =>
      cases hemb : embed c with
      | error e =>
        rw [store_embed_error embed st
          ⟨c, generate_content_hash c [], l.toFinset, mt, 0⟩ e hdup hemb] at hm
        exact Or.inl hm
      | ok v =>
        rw [store_embed_ok embed st
          ⟨c, generate_content_hash c [], l.toFinset, mt, 0⟩ v hdup hemb] at hm
        rcases List.mem_append.mp hm with hm2 | hm2
        · exact Or.inl hm2
        · rw [List.mem_singleton.mp hm2]
          exact Or.inr rfl
  · intro st2 tags2 it hit
    obtain ⟨m, hm, rfl⟩ := List.mem_map.mp hit
    obtain ⟨h0, _, hfind⟩ := List.mem_filterMap.mp hm
    exact ⟨m, List.mem_of_find?_eq_some hfind, rfl⟩
  · intro embed2 st2 q2 n2 resp hresp it hit
    obtain ⟨results, hres, rfl⟩ := retrieve_memory_ok embed2 st2 q2 n2 resp hresp
    obtain ⟨r, hr, rfl⟩ := List.mem_map.mp hit
    unfold MemoryStore.retrieve at hres
    cases hemb : embed2 q2 with
    | error e =>
      rw [hemb] at hres
      simp at hres
    | ok qv =>
      rw [hemb] at hres
      simp only [Except.ok.injEq] at hres
      subst hres
      obtain ⟨p, _, hpr⟩ := List.mem_filterMap.mp hr
      rw [Option.map_eq_some'] at hpr
      obtain ⟨m, hfind, rfl⟩ := hpr
      exact ⟨m, List.mem_of_find?_eq_some hfind, rfl⟩

/-- Witness for C8: the store outcome for the tag list b,a,a is identical to
that for a,b, and the stored record carries the collapsed tag set. -/
theorem tags_set_semantics_witness :
    store_memory embedOk emptyState "c" none ["b", "a", "a"]
      = store_memory embedOk emptyState "c" none ["a", "b"]
    ∧ ∀ m ∈ (store_memory embedOk emptyState "c" none ["b", "a", "a"] ).2.records,
        m ∈ emptyState.records ∨ m.tags = (["b", "a", "a"] : List String).toFinset := by
  have h := tags_set_semantics embedOk emptyState "c" none
    ["b", "a", "a"] ["a", "b"] (by decide)
  exact ⟨h.1, h.2.1⟩

end MemSvc
